import Mathlib

/-!
Verification of a decoder-only transformer training script
(`starter_part4.py`): causal mask construction, scaled dot-product
attention with mask fill, decoder-layer composition, sinusoidal
positional-encoding precomputation, dataset blocking, padding-aware
cross-entropy, the cosine-with-restarts learning-rate scheduler, and the
validate/test evaluation loops.

Modelling conventions: machine floats are modelled by `ℝ` (exact field
arithmetic); the float value `-inf` used in the mask is modelled by `⊥`
in `WithBot ℚ`; tensors are functions out of `Fin`/`ℕ` index types or
lists; dropout is modelled as the identity (its evaluation-mode
behaviour) and the stochastic parts of training are abstract functions;
mutation of Python attributes is modelled by explicit state passing.
-/

namespace StarterPart4

/-- `no_peak_mask(size)` from the source:
`torch.triu(torch.ones(size, size) * float('-inf'), diagonal=1)`.
`triu(A, 1)` keeps `A[i][j]` where `j ≥ i + 1` and zeroes the rest, so the
entry at `(i, j)` is `-inf` when `i + 1 ≤ j` and `0` otherwise. -/
def no_peak_mask (size : ℕ) : Fin size → Fin size → WithBot ℚ :=
  fun i j => if (i : ℕ) + 1 ≤ (j : ℕ) then ⊥ else 0

/-- The index list produced by Python `range(0, n, bs)` for `bs > 0`:
`⌈n / bs⌉` indices `0, bs, 2·bs, …`. -/
def pyRangeStep (n bs : ℕ) : List ℕ :=
  (List.range ((n + bs - 1) / bs)).map (fun j => j * bs)

/-- `WikiDataset.__init__`: `self.data = [data[i:i+block_size+1] for i in
range(0, len(data), block_size)]`. -/
def WikiDataset.data (data : List ℤ) (block_size : ℕ) : List (List ℤ) :=
  (pyRangeStep data.length block_size).map (fun i => (data.drop i).take (block_size + 1))

/-- `WikiDataset.__getitem__`: `text = self.data[index]`;
`input_text = text[:-1]`; `target_text = text[1:]`. -/
def WikiDataset.getItem (data : List ℤ) (block_size index : ℕ) : List ℤ × List ℤ :=
  let text := (WikiDataset.data data block_size).getD index []
  (text.dropLast, text.tail)

/-- A 12-token corpus `[0, …, 11]`, the spec's own toy corpus size. -/
def wikiData12 : List ℤ := [0, 1, 2, 3, 4, 5, 6, 7, 8, 9, 10, 11]

/-- The sublayer functions a `DecoderLayer` owns after `__init__`.
The layer is generic over the activation value type `V` and the mask
type `M`; the concrete sublayers (`Norm`, `MultiHeadAttention`,
`nn.Dropout`) are fields, exactly as they are attributes in the source.
The commented-out `attn_2` of the source has no field. -/
structure DecoderLayer (V M : Type) where
  norm_1 : V → V
  norm_2 : V → V
  norm_3 : V → V
  dropout_1 : V → V
  dropout_3 : V → V
  attn_1 : V → V → V → M → V
  ff : V → V

/-- `DecoderLayer.forward` exactly as written in the source:
`x2 = self.norm_1(x)`; `x = self.dropout_1(self.attn_1(x2, x2, x2, trg_mask))`;
`x2 = self.norm_2(x)`; `x = self.dropout_1(self.attn_1(x2, x2, x2, trg_mask))`;
`return x`.  (The residual adds, cross-attention and feed-forward lines are
commented out in the source and therefore absent here.) -/
def DecoderLayer.forward {V M : Type} (dl : DecoderLayer V M) (x : V) (trg_mask : M) : V :=
  let x2 := dl.norm_1 x
  let x1 := dl.dropout_1 (dl.attn_1 x2 x2 x2 trg_mask)
  let x3 := dl.norm_2 x1
  dl.dropout_1 (dl.attn_1 x3 x3 x3 trg_mask)

/-- The composition the spec claims for a decoder layer forward pass:
normalize, then masked self-attention, then dropout, applied once.
This definition follows the spec's words and exists only to be compared
with `DecoderLayer.forward`, which is translated from the source. -/
def DecoderLayer.forwardSpec {V M : Type} (dl : DecoderLayer V M) (x : V) (trg_mask : M) : V :=
  dl.dropout_1 (dl.attn_1 (dl.norm_1 x) (dl.norm_1 x) (dl.norm_1 x) trg_mask)

/-- A concrete decoder layer over `ℕ` used to separate the two
compositions: identities everywhere except attention, which adds 1. -/
def dlA : DecoderLayer ℕ ℕ where
  norm_1 := id
  norm_2 := id
  norm_3 := id
  dropout_1 := id
  dropout_3 := id
  attn_1 := fun q _ _ _ => q + 1
  ff := id

/-- A second concrete decoder layer agreeing with `dlA` on every field
the forward pass reads, but with different `ff`, `norm_3`, `dropout_3`. -/
def dlB : DecoderLayer ℕ ℕ where
  norm_1 := id
  norm_2 := id
  norm_3 := fun n => n + 7
  dropout_1 := id
  dropout_3 := fun n => n + 9
  attn_1 := fun q _ _ _ => q + 1
  ff := fun n => n + 5

/-- The raw attention scores of `attention(q, k, v, d_k, …)`:
`scores = torch.matmul(q, k.transpose(-2, -1)) / math.sqrt(d_k)`.
One batch/head slice is modelled (the `expand` in the source broadcasts
the same mask over the batch and head dimensions, so every slice of the
score tensor is combined with the same `L × L` mask). -/
noncomputable def attnScores {L dk : ℕ} (q k : Fin L → Fin dk → ℝ) : Fin L → Fin L → ℝ :=
  fun i j => (∑ t, q i t * k j t) / Real.sqrt (dk : ℝ)

/-- `scores.masked_fill(mask == 0, 1e-9)`: every score whose mask entry
EQUALS zero is replaced by `1e-9`; scores at `-inf` mask entries are kept. -/
noncomputable def maskFill {L : ℕ} (s : Fin L → Fin L → ℝ) (mask : Fin L → Fin L → WithBot ℚ) :
    Fin L → Fin L → ℝ :=
  fun i j => if mask i j = 0 then (1 / 1000000000 : ℝ) else s i j

/-- `F.softmax(scores, dim=-1)`: row-wise softmax over the last index. -/
noncomputable def softmaxLast {L : ℕ} (s : Fin L → Fin L → ℝ) : Fin L → Fin L → ℝ :=
  fun i j => Real.exp (s i j) / ∑ u, Real.exp (s i u)

/-- The `attention` function of the source (dropout in evaluation mode,
i.e. the identity): softmax of the mask-filled scaled scores, then
`torch.matmul(scores, v)`. -/
noncomputable def attention {L dk : ℕ} (q k v : Fin L → Fin dk → ℝ) (mask : Fin L → Fin L → WithBot ℚ) :
    Fin L → Fin dk → ℝ :=
  fun i t => ∑ j, softmaxLast (maskFill (attnScores q k) mask) i j * v j t

/-- An all-zero query/key tensor for sequence length 2, `d_k = 1`. -/
def qZero : Fin 2 → Fin 1 → ℝ := fun _ _ => 0

/-- An all-zero value tensor. -/
def vZero : Fin 2 → Fin 1 → ℝ := fun _ _ => 0

/-- A value tensor that is zero at position 0 and one at position 1: it
agrees with `vZero` at position 0 and differs only at the future
position 1. -/
def vOne : Fin 2 → Fin 1 → ℝ := fun j _ => if (j : ℕ) = 1 then 1 else 0

/-- The per-position negative log-likelihood used by
`nn.CrossEntropyLoss`: `log (∑ⱼ exp lⱼ) - l_t` for a logit row `l` and
target class `t` (only ever applied to in-range, non-ignored targets). -/
noncomputable def ceRowLoss (V : ℕ) (logits : Fin V → ℝ) (t : ℤ) : ℝ :=
  Real.log (∑ j, Real.exp (logits j)) -
    (if h : 0 ≤ t ∧ t < (V : ℤ) then logits ⟨t.toNat, by omega⟩ else 0)

/-- `nn.CrossEntropyLoss(ignore_index=-100)` with the default mean
reduction, applied to a flattened batch of (logit row, target) pairs:
positions whose target is the ignore sentinel `-100` are excluded from
both the sum and the count. -/
noncomputable def cross_entropy_ignore (V : ℕ) (rows : List ((Fin V → ℝ) × ℤ)) : ℝ :=
  ((rows.filter (fun r => decide (r.2 ≠ -100))).map (fun r => ceRowLoss V r.1 r.2)).sum /
    ((rows.filter (fun r => decide (r.2 ≠ -100))).length : ℝ)

/-- A padding row for the loss: arbitrary logits, target `-100` (the
value `collate_fn` pads targets with). -/
def padRow : (Fin 1 → ℝ) × ℤ := (fun _ => 0, -100)

/-- A non-padding row with a real target. -/
def realRow : (Fin 1 → ℝ) × ℤ := (fun _ => 0, 0)

/-- A single tensor element assignment `pe[p, c] = v`, modelled as a
pointwise function update. -/
def upd (m : ℕ → ℕ → ℝ) (p c : ℕ) (v : ℝ) : ℕ → ℕ → ℝ :=
  fun p2 c2 => if p2 = p ∧ c2 = c then v else m p2 c2

/-- The angle `pos / (10000 ** ((2 * c) / d_model))` appearing in the
positional-encoder precomputation (`**` with a float exponent is real
exponentiation, and `(2 * c) / d_model` is Python float division). -/
noncomputable def peAngle (d_model pos c : ℕ) : ℝ :=
  (pos : ℝ) / Real.rpow 10000 (((2 * c : ℕ) : ℝ) / (d_model : ℝ))

/-- One iteration of the inner loop of `PositionalEncoder.__init__` at
even column `i`:
`pe[pos, i] = math.sin(pos / (10000 ** ((2 * i)/d_model)))` followed by
`pe[pos, i + 1] = math.cos(pos / (10000 ** ((2 * (i + 1))/d_model)))`. -/
noncomputable def peStep (d_model pos : ℕ) (m : ℕ → ℕ → ℝ) (i : ℕ) : ℕ → ℕ → ℝ :=
  upd (upd m pos i (Real.sin (peAngle d_model pos i)))
    pos (i + 1) (Real.cos (peAngle d_model pos (i + 1)))

/-- Python `range(0, k·2, 2)` as the first `k` even numbers; the inner
loop `range(0, d_model, 2)` is `evenCols ((d_model + 1) / 2)`. -/
def evenCols (k : ℕ) : List ℕ := (List.range k).map (fun j => 2 * j)

/-- The inner loop of `PositionalEncoder.__init__` for one `pos`. -/
noncomputable def peRow (d_model pos : ℕ) (m : ℕ → ℕ → ℝ) : ℕ → ℕ → ℝ :=
  (evenCols ((d_model + 1) / 2)).foldl (peStep d_model pos) m

/-- The full `pe` matrix precomputed by `PositionalEncoder.__init__`:
start from `torch.zeros(max_seq_len, d_model)` and run both loops. -/
noncomputable def peMatrix (d_model max_seq_len : ℕ) : ℕ → ℕ → ℝ :=
  (List.range max_seq_len).foldl (fun m pos => peRow d_model pos m) (fun _ _ => 0)

/-- Closed form of the entry the source's loops leave at `(pos, c)`:
`sin` for even columns and `cos` for odd columns, both with the angle
`pos / 10000 ^ (2c / d_model)` — so a `(sin, cos)` pair at columns
`(2i, 2i + 1)` uses exponents `4i/d_model` and `(4i+2)/d_model`, not a
shared exponent. -/
noncomputable def peVal (d_model pos c : ℕ) : ℝ :=
  if c % 2 = 0 then Real.sin (peAngle d_model pos c) else Real.cos (peAngle d_model pos c)

/-- The sequence of `(pos, column)` index pairs the two loops of
`PositionalEncoder.__init__` write to, in order. -/
def peWrites (d_model max_seq_len : ℕ) : List (ℕ × ℕ) :=
  (List.range max_seq_len).flatMap (fun pos =>
    (evenCols ((d_model + 1) / 2)).flatMap (fun i => [(pos, i), (pos, i + 1)]))

/-- Whether every write of the precomputation loop stays inside the
bounds of the `max_seq_len × d_model` tensor `pe`; an out-of-bounds
write raises `IndexError` in the source, i.e. construction fails. -/
def peConstructOk (d_model max_seq_len : ℕ) : Bool :=
  (peWrites d_model max_seq_len).all (fun w => decide (w.1 < max_seq_len ∧ w.2 < d_model))

/-- Python `int(x)` on a float: truncation toward zero, modelled on `ℚ`. -/
def pyInt (x : ℚ) : ℤ := if 0 ≤ x then ⌊x⌋ else ⌈x⌉

/-- The state of a `CosineWithRestarts` scheduler object.  Python ints
are `ℤ`, the float-valued cycle-factor bookkeeping is `ℚ`, and the
learning-rate floats are `ℝ`.  `inited` models the `_initialized` flag.
`base_lrs` and `last_epoch` are the attributes the `_LRScheduler` base
class maintains. -/
structure CosineWithRestarts where
  T_max : ℤ
  eta_min : ℝ
  factor : ℚ
  base_lrs : List ℝ
  last_epoch : ℤ
  last_restart : ℤ
  cycle_counter : ℤ
  cycle_factor : ℚ
  updated_cycle_len : ℤ
  inited : Bool

/-- `CosineWithRestarts.get_lr`, statement by statement.  On the first
call it flips the flag and returns the base rates.  Otherwise
`step = last_epoch + 1`, `cycle_counter = step - last_restart`, the
returned rates follow the cosine formula with
`c = cycle_counter % updated_cycle_len`, and when that remainder is zero
a restart is recorded (`cycle_factor *= factor`, `cycle_counter = 0`,
`updated_cycle_len = int(cycle_factor * T_max)`,
`last_restart = step`).  The mutated object is returned alongside the
rates. -/
noncomputable def CosineWithRestarts.get_lr (s : CosineWithRestarts) :
    List ℝ × CosineWithRestarts :=
  if s.inited = false then
    (s.base_lrs, { s with inited := true })
  else
    let step := s.last_epoch + 1
    let cc := step - s.last_restart
    let lrs := s.base_lrs.map (fun lr =>
      s.eta_min + ((lr - s.eta_min) / 2) *
        (Real.cos (Real.pi * ((cc % s.updated_cycle_len : ℤ) : ℝ) /
            (s.updated_cycle_len : ℝ)) + 1))
    if cc % s.updated_cycle_len = 0 then
      (lrs, { s with cycle_factor := s.cycle_factor * s.factor,
                     cycle_counter := 0,
                     updated_cycle_len := pyInt (s.cycle_factor * s.factor * (s.T_max : ℚ)),
                     last_restart := step })
    else
      (lrs, { s with cycle_counter := cc })

/-- `_LRScheduler.step()`: increment `last_epoch`, then query `get_lr`
(the returned rates are installed into the optimizer, which is external
to this model). -/
noncomputable def CosineWithRestarts.stepLR (s : CosineWithRestarts) :
    List ℝ × CosineWithRestarts :=
  CosineWithRestarts.get_lr { s with last_epoch := s.last_epoch + 1 }

/-- The scheduler object as `CosineWithRestarts.__init__` builds it just
before the base-class constructor invokes `step()`: default
`last_epoch = -1` and the uninitialized flag. -/
def CosineWithRestarts.mk0 (T : ℤ) (eta : ℝ) (f : ℚ) (base : List ℝ) : CosineWithRestarts :=
  { T_max := T, eta_min := eta, factor := f, base_lrs := base,
    last_epoch := -1, last_restart := 0, cycle_counter := 0,
    cycle_factor := 1, updated_cycle_len := T, inited := false }

/-- The `n`-th `get_lr` query made against a freshly constructed
scheduler, 0-indexed: query 0 is the one the constructor itself issues
through `step()`, and each later query is one external
`scheduler.step()` call. -/
noncomputable def schedQuery (T : ℤ) (eta : ℝ) (f : ℚ) (base : List ℝ) :
    ℕ → List ℝ × CosineWithRestarts
  | 0 => (CosineWithRestarts.mk0 T eta f base).stepLR
  | n + 1 => (schedQuery T eta f base n).2.stepLR

/-- A freshly constructed scheduler state (`T_max = 2`, one base rate). -/
def sched0 : CosineWithRestarts := CosineWithRestarts.mk0 2 0 1 [1]

/-- An already-initialized scheduler state. -/
def sched1 : CosineWithRestarts :=
  { T_max := 2, eta_min := 0, factor := 1, base_lrs := [1],
    last_epoch := 0, last_restart := 0, cycle_counter := 0,
    cycle_factor := 1, updated_cycle_len := 2, inited := true }

/-- The collaborators one training/evaluation batch step uses, kept
abstract: `forward` is the model applied to an input batch and a mask,
`mkMask ∘ seqLen` is the `no_peak_mask(input_text.size(1))` construction,
`lossf` is the flattened cross-entropy call, and `update` collapses
`zero_grad` / `backward` / `optimizer.step` into one abstract
parameter-update function (gradients are not modelled further). -/
structure LMPipeline (P I T M O : Type) where
  seqLen : I → ℕ
  mkMask : ℕ → M
  forward : P → I → M → O
  lossf : O → T → ℝ
  update : P → ℝ → P

/-- `validate(model, valid_dataloader, loss_fn, device)`: for each batch
build the mask, run the model, add the loss to the accumulator — the
parameter component of the state is never reassigned, mirroring the
absence of any backward/step call in the source — then
`avg_loss = total_loss / len(dataloader)` and
`perplexity = math.exp(avg_loss)`. -/
noncomputable def validateRun {P I T M O : Type} (pl : LMPipeline P I T M O) (p : P)
    (batches : List (I × T)) : P × ℝ × ℝ :=
  let st := batches.foldl
    (fun st b =>
      (st.1, st.2 + pl.lossf (pl.forward st.1 b.1 (pl.mkMask (pl.seqLen b.1))) b.2))
    (p, (0 : ℝ))
  let avg := st.2 / (batches.length : ℝ)
  (st.1, avg, Real.exp avg)

/-- `test(model, opt, test_dataloader, loss_fn)`: the same loop as
`validate` over the test dataloader. -/
noncomputable def testRun {P I T M O : Type} (pl : LMPipeline P I T M O) (p : P)
    (batches : List (I × T)) : P × ℝ × ℝ :=
  let st := batches.foldl
    (fun st b =>
      (st.1, st.2 + pl.lossf (pl.forward st.1 b.1 (pl.mkMask (pl.seqLen b.1))) b.2))
    (p, (0 : ℝ))
  let avg := st.2 / (batches.length : ℝ)
  (st.1, avg, Real.exp avg)

/-- One epoch of the `train_model` inner loop: the same mask/forward/loss
computation per batch, but followed by the parameter update
(`loss.backward(); optimizer.step()`); then the epoch's
`avg_tl = total_tl / len(train_dataloader)` and
`train_perplexity = math.exp(avg_tl)`. -/
noncomputable def trainEpochRun {P I T M O : Type} (pl : LMPipeline P I T M O) (p : P)
    (batches : List (I × T)) : P × ℝ × ℝ :=
  let st := batches.foldl
    (fun st b =>
      let loss := pl.lossf (pl.forward st.1 b.1 (pl.mkMask (pl.seqLen b.1))) b.2
      (pl.update st.1 loss, st.2 + loss))
    (p, (0 : ℝ))
  let avg := st.2 / (batches.length : ℝ)
  (st.1, avg, Real.exp avg)

/-- A concrete pipeline over `ℕ` whose update function is the identity. -/
noncomputable def plNat : LMPipeline ℕ ℕ ℕ ℕ ℕ where
  seqLen := id
  mkMask := id
  forward := fun p i m => p + i + m
  lossf := fun o t => (o : ℝ) + (t : ℝ)
  update := fun q _ => q

/-- Claim C8: for every sequence length `L`, `no_peak_mask L` is an `L × L`
matrix whose entries strictly above the main diagonal are negative
infinity and all other entries (on and below the diagonal) are zero. -/
theorem c8_no_peak_mask (L : ℕ) (i j : Fin L) :
    no_peak_mask L i j = if (i : ℕ) < (j : ℕ) then (⊥ : WithBot ℚ) else 0 := by
  simp [no_peak_mask, Nat.add_one_le_iff]

/-- Claim C4 fails on the code as stated: on the 12-token corpus with
`block_size = 3` the dataset's final example (index 3) has
`len(input) = len(target) = 2 ≠ 3`, because the construction slices with
stride `block_size` while taking `block_size + 1` tokens, leaving the
last slice short. -/
theorem c4_counterexample :
    ¬ (∀ index, index < (WikiDataset.data wikiData12 3).length →
        (WikiDataset.getItem wikiData12 3 index).1.length = 3 ∧
        (WikiDataset.getItem wikiData12 3 index).2.length = 3) := by
  decide

/-- Claim C4 amended: every example satisfies `len(input) == len(target)`,
and the common length is `min block_size (len(data) - block_size·index - 1)`;
it equals `block_size` for the non-final examples but is strictly smaller
for the final one. -/
theorem c4_amended (data : List ℤ) (block_size index : ℕ)
    (hbs : 0 < block_size) (hidx : index < (WikiDataset.data data block_size).length) :
    (WikiDataset.getItem data block_size index).1.length =
      (WikiDataset.getItem data block_size index).2.length ∧
    (WikiDataset.getItem data block_size index).1.length =
      min block_size (data.length - block_size * index - 1) := by
  have hlen : (WikiDataset.data data block_size).length =
      (data.length + block_size - 1) / block_size := by
    simp [WikiDataset.data, pyRangeStep]
  have hK : index < (data.length + block_size - 1) / block_size := hlen ▸ hidx
  have hmul : (index + 1) * block_size ≤ data.length + block_size - 1 :=
    (Nat.le_div_iff_mul_le hbs).1 hK
  rw [Nat.succ_mul] at hmul
  have hcomm : block_size * index = index * block_size := Nat.mul_comm _ _
  have htext : (WikiDataset.data data block_size).getD index [] =
      (data.drop (index * block_size)).take (block_size + 1) := by
    rw [List.getD_eq_getElem _ _ hidx]
    simp [WikiDataset.data, pyRangeStep]
  have hlt : index * block_size < data.length := by omega
  constructor
  · simp only [WikiDataset.getItem, htext, List.length_dropLast, List.length_tail]
  · simp only [WikiDataset.getItem, htext, List.length_dropLast, List.length_take,
      List.length_drop]
    rw [hcomm]
    omega

/-- Witness for `c4_amended` at the 12-token corpus, `block_size = 3`,
final example index 3 (whose length is 2, not 3). -/
theorem c4_witness :
    (0 < 3 ∧ 3 < (WikiDataset.data wikiData12 3).length) ∧
    ((WikiDataset.getItem wikiData12 3 3).1.length =
       (WikiDataset.getItem wikiData12 3 3).2.length ∧
     (WikiDataset.getItem wikiData12 3 3).1.length =
       min 3 (wikiData12.length - 3 * 3 - 1)) :=
  ⟨⟨by decide, by decide⟩, c4_amended wikiData12 3 3 (by decide) (by decide)⟩

/-- Claim C2 fails on the code as stated: the forward pass is not a single
normalize → self-attention → dropout application.  With identity norms and
dropout and attention `q ↦ q + 1`, the source's forward pass yields 2 at
input 0 while the claimed single application yields 1. -/
theorem c2_counterexample :
    DecoderLayer.forward dlA 0 0 ≠ DecoderLayer.forwardSpec dlA 0 0 := by
  decide

/-- Claim C2 amended: a decoder layer forward pass applies
normalize → masked self-attention → dropout twice in succession
(`norm_1` then `attn_1` then `dropout_1`, then `norm_2` then the same
`attn_1` then the same `dropout_1`), and it reads no other sublayer: it
is unchanged if `ff`, `norm_3` and `dropout_3` are replaced (so there is
indeed no residual connection, no cross-attention and no feed-forward
sublayer in the computation). -/
theorem c2_amended {V M : Type} (dl dl2 : DecoderLayer V M) (x : V) (m : M)
    (h1 : dl.norm_1 = dl2.norm_1) (h2 : dl.norm_2 = dl2.norm_2)
    (h3 : dl.attn_1 = dl2.attn_1) (h4 : dl.dropout_1 = dl2.dropout_1) :
    dl.forward x m = dl2.forward x m ∧
    dl.forward x m =
      dl.dropout_1 (dl.attn_1
        (dl.norm_2 (dl.dropout_1 (dl.attn_1 (dl.norm_1 x) (dl.norm_1 x) (dl.norm_1 x) m)))
        (dl.norm_2 (dl.dropout_1 (dl.attn_1 (dl.norm_1 x) (dl.norm_1 x) (dl.norm_1 x) m)))
        (dl.norm_2 (dl.dropout_1 (dl.attn_1 (dl.norm_1 x) (dl.norm_1 x) (dl.norm_1 x) m)))
        m) := by
  constructor
  · simp [DecoderLayer.forward, h1, h2, h3, h4]
  · rfl

/-- Witness for `c2_amended`: `dlA` and `dlB` differ in `ff`, `norm_3`,
`dropout_3` yet produce the same forward pass. -/
theorem c2_witness :
    DecoderLayer.forward dlA 0 0 = DecoderLayer.forward dlB 0 0 ∧
    DecoderLayer.forward dlA 0 0 =
      dlA.dropout_1 (dlA.attn_1
        (dlA.norm_2 (dlA.dropout_1 (dlA.attn_1 (dlA.norm_1 0) (dlA.norm_1 0) (dlA.norm_1 0) 0)))
        (dlA.norm_2 (dlA.dropout_1 (dlA.attn_1 (dlA.norm_1 0) (dlA.norm_1 0) (dlA.norm_1 0) 0)))
        (dlA.norm_2 (dlA.dropout_1 (dlA.attn_1 (dlA.norm_1 0) (dlA.norm_1 0) (dlA.norm_1 0) 0)))
        0) :=
  c2_amended dlA dlB 0 0 rfl rfl rfl rfl

/-- Claim C1 describes the intended causal masking, but the code gets it
backwards: `masked_fill(mask == 0, 1e-9)` fills the positions whose mask
entry is ZERO — these are the allowed on-and-below-diagonal positions —
and leaves the raw scores at the `-inf` (future) positions untouched.
At the failing input `L = 2`, `d_k = 1`, `q = k = 0`: the allowed score
`(0,0)` is overwritten with `1e-9`, the future score `(0,1)` keeps its
raw value `0` instead of being set to `1e-9`, and consequently the
output at position 0 changes when only the future value vector at
position 1 changes — position 0 attends to the future. -/
theorem c1_masking_bug :
    maskFill (attnScores qZero qZero) (no_peak_mask 2) 0 0 = 1 / 1000000000 ∧
    maskFill (attnScores qZero qZero) (no_peak_mask 2) 0 1 = 0 ∧
    attention qZero qZero vOne (no_peak_mask 2) 0 0 ≠
      attention qZero qZero vZero (no_peak_mask 2) 0 0 := by
  have hbot : (⊥ : WithBot ℚ) ≠ 0 := WithBot.bot_ne_coe
  have hm00 : no_peak_mask 2 0 0 = 0 := by simp [no_peak_mask]
  have hm01 : no_peak_mask 2 0 1 = ⊥ := by simp [no_peak_mask]
  have hraw : ∀ i j : Fin 2, attnScores qZero qZero i j = 0 := by
    intro i j
    simp [attnScores, qZero]
  have hf00 : maskFill (attnScores qZero qZero) (no_peak_mask 2) 0 0 = 1 / 1000000000 := by
    simp [maskFill, hm00]
  have hf01 : maskFill (attnScores qZero qZero) (no_peak_mask 2) 0 1 = 0 := by
    simp [maskFill, hm01, hbot, hraw]
  refine ⟨hf00, hf01, ?_⟩
  have hz : attention qZero qZero vZero (no_peak_mask 2) 0 0 = 0 := by
    simp [attention, vZero]
  have hone : attention qZero qZero vOne (no_peak_mask 2) 0 0 =
      Real.exp (maskFill (attnScores qZero qZero) (no_peak_mask 2) 0 1) /
        (Real.exp (maskFill (attnScores qZero qZero) (no_peak_mask 2) 0 0) +
          Real.exp (maskFill (attnScores qZero qZero) (no_peak_mask 2) 0 1)) := by
    simp [attention, softmaxLast, vOne, Fin.sum_univ_two]
  have hpos : 0 < attention qZero qZero vOne (no_peak_mask 2) 0 0 := by
    rw [hone]
    exact div_pos (Real.exp_pos _) (add_pos (Real.exp_pos _) (Real.exp_pos _))
  rw [hz]
  exact ne_of_gt hpos

/-- Claim C5: appending extra padding rows (target value the ignore
sentinel `-100`, logits arbitrary) to a batch leaves the cross-entropy
loss unchanged, because sentinel-marked targets are excluded from both
the sum and the count of the mean reduction. -/
theorem c5_loss_pad_invariant (V : ℕ) (rows pads : List ((Fin V → ℝ) × ℤ))
    (hp : ∀ r ∈ pads, r.2 = -100) :
    cross_entropy_ignore V (rows ++ pads) = cross_entropy_ignore V rows := by
  have hnil : pads.filter (fun r => decide (r.2 ≠ -100)) = [] := by
    rw [List.filter_eq_nil_iff]
    intro a ha
    simp [hp a ha]
  unfold cross_entropy_ignore
  rw [List.filter_append, hnil, List.append_nil]

/-- Witness for `c5_loss_pad_invariant`: one real row plus one appended
padding row with target `-100`. -/
theorem c5_witness :
    (∀ r ∈ [padRow], r.2 = -100) ∧
    cross_entropy_ignore 1 ([realRow] ++ [padRow]) = cross_entropy_ignore 1 [realRow] := by
  have hp : ∀ r ∈ [padRow], r.2 = -100 := by
    intro r hr
    simp only [List.mem_singleton] at hr
    subst hr
    rfl
  exact ⟨hp, c5_loss_pad_invariant 1 [realRow] [padRow] hp⟩

theorem upd_same (m : ℕ → ℕ → ℝ) (p c : ℕ) (v : ℝ) : upd m p c v p c = v := by
  simp [upd]

theorem upd_other (m : ℕ → ℕ → ℝ) (p c : ℕ) (v : ℝ) (p2 c2 : ℕ)
    (h : ¬(p2 = p ∧ c2 = c)) : upd m p c v p2 c2 = m p2 c2 :=
  if_neg h

/-- Characterisation of the inner positional-encoding loop over the first
`k` even columns: row `pos` gets `peVal` at every column below `2k`,
everything else is untouched. -/
theorem peRow_aux (d_model pos : ℕ) :
    ∀ (k : ℕ) (m : ℕ → ℕ → ℝ) (p c : ℕ),
      ((evenCols k).foldl (peStep d_model pos) m) p c =
        if p = pos ∧ c < 2 * k then peVal d_model pos c else m p c := by
  intro k
  induction k with
  | zero =>
    intro m p c
    simp [evenCols]
  | succ n ih =>
    intro m p c
    have hsplit : evenCols (n + 1) = evenCols n ++ [2 * n] := by
      simp [evenCols, List.range_succ]
    rw [hsplit, List.foldl_append]
    simp only [List.foldl_cons, List.foldl_nil]
    by_cases hp : p = pos
    · subst hp
      by_cases hc1 : c = 2 * n + 1
      · subst hc1
        rw [peStep, upd_same, if_pos ⟨rfl, by omega⟩, peVal, if_neg (by omega)]
      · by_cases hc0 : c = 2 * n
        · subst hc0
          rw [peStep, upd_other _ _ _ _ _ _ (by omega), upd_same,
            if_pos ⟨rfl, by omega⟩, peVal, if_pos (by omega)]
        · rw [peStep, upd_other _ _ _ _ _ _ (by omega),
            upd_other _ _ _ _ _ _ (by omega), ih]
          by_cases hlt : c < 2 * n
          · rw [if_pos ⟨rfl, hlt⟩, if_pos ⟨rfl, by omega⟩]
          · rw [if_neg (by omega), if_neg (by omega)]
    · rw [peStep, upd_other _ _ _ _ _ _ (fun hh => hp hh.1),
        upd_other _ _ _ _ _ _ (fun hh => hp hh.1), ih,
        if_neg (fun hh => hp hh.1), if_neg (fun hh => hp hh.1)]

/-- Closed form of the whole precomputed matrix: `peVal` inside the
region the loops write, `0` (the `torch.zeros` initial value) outside. -/
theorem peMatrix_eq (d_model : ℕ) :
    ∀ (n p c : ℕ),
      peMatrix d_model n p c =
        if p < n ∧ c < 2 * ((d_model + 1) / 2) then peVal d_model p c else 0 := by
  intro n
  induction n with
  | zero =>
    intro p c
    simp [peMatrix]
  | succ n ih =>
    intro p c
    have hstep : peMatrix d_model (n + 1) = peRow d_model n (peMatrix d_model n) := by
      rw [peMatrix, peMatrix, List.range_succ, List.foldl_append]
      simp only [List.foldl_cons, List.foldl_nil]
    rw [hstep, peRow, peRow_aux, ih]
    by_cases hp : p = n
    · subst hp
      by_cases hc : c < 2 * ((d_model + 1) / 2)
      · rw [if_pos ⟨rfl, hc⟩, if_pos ⟨Nat.lt_succ_self p, hc⟩]
      · rw [if_neg (fun hh => hc hh.2), if_neg (fun hh => hc hh.2),
          if_neg (fun hh => hc hh.2)]
    · rw [if_neg (fun hh => hp hh.1)]
      by_cases hq : p < n ∧ c < 2 * ((d_model + 1) / 2)
      · rw [if_pos hq, if_pos ⟨by omega, hq.2⟩]
      · rw [if_neg hq, if_neg (by omega)]

/-- Claim C3 fails on the code as stated: with `d_model = 2`,
`max_seq_len = 2`, pair index `i = 0`, the claim puts
`cos(pos / 10000^(2i/d_model)) = cos 1` at entry `(1, 1)`, but the source
computes `cos(pos / 10000^((2·(i+1))/d_model)) = cos (1/10000)` there,
and the two values differ. -/
theorem c3_counterexample :
    peMatrix 2 2 1 1 ≠ Real.cos ((1 : ℝ) / Real.rpow 10000 (((2 * 0 : ℕ) : ℝ) / (2 : ℝ))) := by
  have h1 : peMatrix 2 2 1 1 = Real.cos ((1 : ℝ) / 10000) := by
    rw [peMatrix_eq, if_pos (by omega), peVal, if_neg (by omega), peAngle]
    norm_num [Real.rpow_one]
  have h2 : Real.cos ((1 : ℝ) / Real.rpow 10000 (((2 * 0 : ℕ) : ℝ) / (2 : ℝ))) = Real.cos 1 := by
    norm_num [Real.rpow_zero]
  rw [h1, h2]
  have hlt : Real.cos 1 < Real.cos (1 / 10000) := by
    apply Real.cos_lt_cos_of_nonneg_of_le_pi (by norm_num) ?_ (by norm_num)
    have := Real.pi_gt_three
    linarith
  exact ne_of_gt hlt

/-- Claim C3 amended: every in-bounds entry of the precomputed matrix is
`(pos, c) = sin(pos / 10000^(2c/d_model))` for even `c` and
`cos(pos / 10000^(2c/d_model))` for odd `c` — the column index itself,
not the pair index, appears doubled in the exponent, so the sine and
cosine of a pair `(2i, 2i+1)` use the different exponents `4i/d_model`
and `(4i+2)/d_model` instead of a shared `2i/d_model`. -/
theorem c3_amended (d_model max_seq_len pos c : ℕ)
    (h1 : pos < max_seq_len) (h2 : c < d_model) :
    peMatrix d_model max_seq_len pos c = peVal d_model pos c := by
  rw [peMatrix_eq, if_pos ⟨h1, by omega⟩]

/-- Witness for `c3_amended` at `d_model = 2`, `max_seq_len = 2`,
entry `(1, 1)`. -/
theorem c3_witness :
    (1 < 2 ∧ 1 < 2) ∧ peMatrix 2 2 1 1 = peVal 2 1 1 :=
  ⟨⟨by omega, by omega⟩, c3_amended 2 2 1 1 (by omega) (by omega)⟩

/-- Claim C10: for odd `d_model` (and a positive precomputed length) the
loop attempts the write `pe[0, d_model]` — column index out of bounds —
so construction fails; for even `d_model` every write is in bounds. -/
theorem c10_odd_dmodel_oob (d_model max_seq_len : ℕ) (h : 0 < max_seq_len) :
    (d_model % 2 = 1 →
      ((0, d_model) ∈ peWrites d_model max_seq_len ∧
        peConstructOk d_model max_seq_len = false)) ∧
    (d_model % 2 = 0 → peConstructOk d_model max_seq_len = true) := by
  constructor
  · intro hodd
    have hmem : (0, d_model) ∈ peWrites d_model max_seq_len := by
      rw [peWrites, List.mem_flatMap]
      refine ⟨0, List.mem_range.2 h, ?_⟩
      rw [List.mem_flatMap]
      refine ⟨d_model - 1, ?_, ?_⟩
      · rw [evenCols, List.mem_map]
        exact ⟨(d_model - 1) / 2, List.mem_range.2 (by omega), by omega⟩
      · have hd : d_model - 1 + 1 = d_model := by omega
        simp [hd]
    refine ⟨hmem, ?_⟩
    have hnot : ¬(peConstructOk d_model max_seq_len = true) := by
      rw [peConstructOk, List.all_eq_true]
      intro hall
      have hw := hall (0, d_model) hmem
      rw [decide_eq_true_eq] at hw
      omega
    cases hb : peConstructOk d_model max_seq_len
    · rfl
    · exact absurd hb hnot
  · intro heven
    rw [peConstructOk, List.all_eq_true]
    intro w hw
    rw [peWrites, List.mem_flatMap] at hw
    obtain ⟨pos, hpos, hw⟩ := hw
    rw [List.mem_flatMap] at hw
    obtain ⟨i, hi, hw⟩ := hw
    rw [evenCols, List.mem_map] at hi
    obtain ⟨j, hj, rfl⟩ := hi
    rw [List.mem_range] at hpos hj
    simp only [List.mem_cons, List.mem_singleton] at hw
    rcases hw with rfl | hw
    · rw [decide_eq_true_eq]
      exact ⟨hpos, by omega⟩
    · rcases hw with rfl | hw
      · rw [decide_eq_true_eq]
        exact ⟨hpos, by omega⟩
      · exact absurd hw (List.not_mem_nil _)

/-- Witness for `c10_odd_dmodel_oob`: with `d_model = 3` the write
`(0, 3)` occurs and construction fails; with `d_model = 4` it succeeds. -/
theorem c10_witness :
    ((0, 3) ∈ peWrites 3 1 ∧ peConstructOk 3 1 = false) ∧ peConstructOk 4 1 = true :=
  ⟨(c10_odd_dmodel_oob 3 1 (by omega)).1 rfl, (c10_odd_dmodel_oob 4 1 (by omega)).2 rfl⟩

/-- `get_lr` on an initialized scheduler, in closed form. -/
theorem get_lr_inited (s : CosineWithRestarts) (hs : s.inited = true) :
    s.get_lr =
      if (s.last_epoch + 1 - s.last_restart) % s.updated_cycle_len = 0 then
        (s.base_lrs.map (fun lr =>
            s.eta_min + ((lr - s.eta_min) / 2) *
              (Real.cos (Real.pi *
                  (((s.last_epoch + 1 - s.last_restart) % s.updated_cycle_len : ℤ) : ℝ) /
                  (s.updated_cycle_len : ℝ)) + 1)),
          { s with cycle_factor := s.cycle_factor * s.factor,
                   cycle_counter := 0,
                   updated_cycle_len := pyInt (s.cycle_factor * s.factor * (s.T_max : ℚ)),
                   last_restart := s.last_epoch + 1 })
      else
        (s.base_lrs.map (fun lr =>
            s.eta_min + ((lr - s.eta_min) / 2) *
              (Real.cos (Real.pi *
                  (((s.last_epoch + 1 - s.last_restart) % s.updated_cycle_len : ℤ) : ℝ) /
                  (s.updated_cycle_len : ℝ)) + 1)),
          { s with cycle_counter := s.last_epoch + 1 - s.last_restart }) := by
  rw [CosineWithRestarts.get_lr, if_neg (by simp [hs])]

/-- The scheduler state after query `n`, for `n` before the first
restart (`n + 2 ≤ T_max`, `factor = 1`): `last_epoch = n`, no restart
recorded, cycle length unchanged. -/
theorem schedQuery_state (T : ℕ) (eta : ℝ) (base : List ℝ) :
    ∀ n : ℕ, n + 2 ≤ T →
      (schedQuery (T : ℤ) eta 1 base n).2 =
        { T_max := (T : ℤ), eta_min := eta, factor := 1, base_lrs := base,
          last_epoch := (n : ℤ), last_restart := 0,
          cycle_counter := if n = 0 then 0 else (n : ℤ) + 1,
          cycle_factor := 1, updated_cycle_len := (T : ℤ), inited := true } := by
  intro n
  induction n with
  | zero =>
    intro _
    show ((CosineWithRestarts.mk0 (T : ℤ) eta 1 base).stepLR).2 = _
    rw [CosineWithRestarts.stepLR, CosineWithRestarts.get_lr]
    norm_num [CosineWithRestarts.mk0]
  | succ n ih =>
    intro h
    have hmod : ((n : ℤ) + 1 + 1 - 0) % (T : ℤ) = (n : ℤ) + 2 := by
      rw [Int.emod_eq_of_lt (by omega) (by omega)]
      ring
    show ((schedQuery (T : ℤ) eta 1 base n).2.stepLR).2 = _
    rw [ih (by omega), CosineWithRestarts.stepLR, get_lr_inited _ rfl]
    rw [if_neg (by simp only; omega)]
    simp only
    norm_num

/-- Claim C6: on the very first `get_lr` query (uninitialized state) the
scheduler returns exactly its base learning rates and transitions to the
initialized state, with no other state change. -/
theorem c6_first_query (s : CosineWithRestarts) (hs : s.inited = false) :
    s.get_lr = (s.base_lrs, { s with inited := true }) := by
  rw [CosineWithRestarts.get_lr, if_pos hs]

/-- Witness for `c6_first_query` on a freshly constructed scheduler. -/
theorem c6_witness :
    sched0.inited = false ∧
    sched0.get_lr = (sched0.base_lrs, { sched0 with inited := true }) :=
  ⟨rfl, c6_first_query sched0 rfl⟩

/-- Claim C7: an initialized scheduler returns, per base rate `lr`,
`eta_min + ((lr - eta_min)/2) * (cos (π * c / cycle_len) + 1)` with
`c = (step - last_restart) % cycle_len` and `step = last_epoch + 1`; and
with `factor = 1` the `T_max`-th query against a fresh scheduler
(query index `T_max - 1`, counting the constructor's own query as index
0) returns exactly the base rates again — a full cycle. -/
theorem c7_cosine_cycle (T : ℕ) (eta : ℝ) (base : List ℝ) (s : CosineWithRestarts)
    (hT : 1 ≤ T) (hs : s.inited = true) :
    (s.get_lr).1 = s.base_lrs.map (fun lr =>
        s.eta_min + ((lr - s.eta_min) / 2) *
          (Real.cos (Real.pi *
              (((s.last_epoch + 1 - s.last_restart) % s.updated_cycle_len : ℤ) : ℝ) /
              (s.updated_cycle_len : ℝ)) + 1)) ∧
    (schedQuery (T : ℤ) eta 1 base (T - 1)).1 = base := by
  constructor
  · rw [get_lr_inited s hs]
    split <;> rfl
  · rcases Nat.lt_or_ge T 2 with h2 | h2
    · have hT1 : T = 1 := by omega
      subst hT1
      show ((CosineWithRestarts.mk0 (1 : ℤ) eta 1 base).stepLR).1 = base
      rw [CosineWithRestarts.stepLR, CosineWithRestarts.get_lr]
      norm_num [CosineWithRestarts.mk0]
    · have hsplit : T - 1 = (T - 2) + 1 := by omega
      rw [hsplit]
      show ((schedQuery (T : ℤ) eta 1 base (T - 2)).2.stepLR).1 = base
      rw [schedQuery_state T eta base (T - 2) (by omega), CosineWithRestarts.stepLR,
        get_lr_inited _ rfl]
      simp only
      have hcast : (((T - 2 : ℕ) : ℤ) + 1 + 1 - 0) = (T : ℤ) := by
        push_cast [Nat.cast_sub h2]
        ring
      rw [hcast, Int.emod_self, if_pos rfl]
      simp only [Int.cast_zero, mul_zero, zero_div, Real.cos_zero]
      have hid : ∀ lr ∈ base, eta + (lr - eta) / 2 * (1 + 1) = lr := by
        intro lr _
        ring
      rw [List.map_congr_left hid]
      exact List.map_id base

/-- Witness for `c7_cosine_cycle` at `T_max = 2`, base rate list `[1]`,
and the concrete initialized state `sched1`. -/
theorem c7_witness :
    (1 ≤ 2 ∧ sched1.inited = true) ∧
    ((sched1.get_lr).1 = sched1.base_lrs.map (fun lr =>
        sched1.eta_min + ((lr - sched1.eta_min) / 2) *
          (Real.cos (Real.pi *
              (((sched1.last_epoch + 1 - sched1.last_restart) % sched1.updated_cycle_len : ℤ) : ℝ) /
              (sched1.updated_cycle_len : ℝ)) + 1)) ∧
      (schedQuery (2 : ℤ) 0 1 [1] (2 - 1)).1 = [1]) :=
  ⟨⟨by omega, rfl⟩, c7_cosine_cycle 2 0 [1] sched1 (by omega) rfl⟩

theorem validate_foldl_fst {P I T M O : Type} (pl : LMPipeline P I T M O)
    (batches : List (I × T)) :
    ∀ st : P × ℝ,
      (batches.foldl
        (fun st b =>
          (st.1, st.2 + pl.lossf (pl.forward st.1 b.1 (pl.mkMask (pl.seqLen b.1))) b.2))
        st).1 = st.1 := by
  induction batches with
  | nil => intro st; rfl
  | cons b l ih =>
    intro st
    rw [List.foldl_cons]
    exact ih _

/-- Claim C9: `validate` (and `test`) leaves the model parameters
unchanged, returns `perplexity = exp(avg_loss)`, `test` performs the
identical computation to `validate`, and a training epoch whose
parameter-update step is the identity (i.e. gradient application
disabled) computes exactly what `validate` computes — the same
forward-and-loss pass. -/
theorem c9_validate_pure {P I T M O : Type} (pl : LMPipeline P I T M O) (p : P)
    (batches : List (I × T)) :
    (validateRun pl p batches).1 = p ∧
    (validateRun pl p batches).2.2 = Real.exp ((validateRun pl p batches).2.1) ∧
    testRun pl p batches = validateRun pl p batches ∧
    (pl.update = (fun q _ => q) → trainEpochRun pl p batches = validateRun pl p batches) := by
  refine ⟨?_, rfl, rfl, ?_⟩
  · exact validate_foldl_fst pl batches (p, 0)
  · intro hu
    simp only [trainEpochRun, validateRun, hu]

/-- Witness for `c9_validate_pure` on a concrete one-batch run. -/
theorem c9_witness :
    (validateRun plNat 5 [(1, 2)]).1 = 5 ∧
    trainEpochRun plNat 5 [(1, 2)] = validateRun plNat 5 [(1, 2)] :=
  ⟨(c9_validate_pure plNat 5 [(1, 2)]).1, (c9_validate_pure plNat 5 [(1, 2)]).2.2.2 rfl⟩

end StarterPart4
